import Mathlib

/-!
Shallow embedding of the sourcegraph gitserver client
(`pkg/gitserver` — `sendExec`, `Command`, `DividedOutput`, `cmdReader`,
`doListMulti`, `RepoInfo`, `UploadPack`) and of the consuming
`repositoryMirrorInfoResolver` from `cmd/frontend/internal/graphqlbackend`.

Bytes are modelled as `Nat` values below 256, byte strings as `List Nat`,
machine words as `Nat` reduced modulo `2 ^ 32` / `2 ^ 64` where the Go code
relies on fixed-width arithmetic.
-/

namespace Gitserver

/-- 32-bit truncation, the implicit wrap-around of Go `uint32` arithmetic. -/
def w32 (n : Nat) : Nat := n % 4294967296

/-- 32-bit left rotation (`bits.RotateLeft32` semantics used inside MD5). -/
def rotl32 (x s : Nat) : Nat := (w32 (x <<< s)) ||| (x >>> (32 - s))

/-- Bitwise complement on a 32-bit word. -/
def not32 (x : Nat) : Nat := x ^^^ 4294967295

/-- The 64 MD5 sine-derived round constants (RFC 1321 T table). -/
def md5K : List Nat :=
  [0xd76aa478, 0xe8c7b756, 0x242070db, 0xc1bdceee,
   0xf57c0faf, 0x4787c62a, 0xa8304613, 0xfd469501,
   0x698098d8, 0x8b44f7af, 0xffff5bb1, 0x895cd7be,
   0x6b901122, 0xfd987193, 0xa679438e, 0x49b40821,
   0xf61e2562, 0xc040b340, 0x265e5a51, 0xe9b6c7aa,
   0xd62f105d, 0x02441453, 0xd8a1e681, 0xe7d3fbc8,
   0x21e1cde6, 0xc33707d6, 0xf4d50d87, 0x455a14ed,
   0xa9e3e905, 0xfcefa3f8, 0x676f02d9, 0x8d2a4c8a,
   0xfffa3942, 0x8771f681, 0x6d9d6122, 0xfde5380c,
   0xa4beea44, 0x4bdecfa9, 0xf6bb4b60, 0xbebfbc70,
   0x289b7ec6, 0xeaa127fa, 0xd4ef3085, 0x04881d05,
   0xd9d4d039, 0xe6db99e5, 0x1fa27cf8, 0xc4ac5665,
   0xf4292244, 0x432aff97, 0xab9423a7, 0xfc93a039,
   0x655b59c3, 0x8f0ccc92, 0xffeff47d, 0x85845dd1,
   0x6fa87e4f, 0xfe2ce6e0, 0xa3014314, 0x4e0811a1,
   0xf7537e82, 0xbd3af235, 0x2ad7d2bb, 0xeb86d391]

/-- The per-round MD5 shift amounts. -/
def md5S : List Nat :=
  [7, 12, 17, 22, 7, 12, 17, 22, 7, 12, 17, 22, 7, 12, 17, 22,
   5,  9, 14, 20, 5,  9, 14, 20, 5,  9, 14, 20, 5,  9, 14, 20,
   4, 11, 16, 23, 4, 11, 16, 23, 4, 11, 16, 23, 4, 11, 16, 23,
   6, 10, 15, 21, 6, 10, 15, 21, 6, 10, 15, 21, 6, 10, 15, 21]

/-- Little-endian 64-bit byte encoding of `n` (the MD5 length trailer). -/
def le64Bytes (n : Nat) : List Nat :=
  [n % 256, (n >>> 8) % 256, (n >>> 16) % 256, (n >>> 24) % 256,
   (n >>> 32) % 256, (n >>> 40) % 256, (n >>> 48) % 256, (n >>> 56) % 256]

/-- MD5 padding: append `0x80`, zero bytes up to 56 mod 64, then the
bit length of the original message as a little-endian 64-bit quantity. -/
def md5Pad (msg : List Nat) : List Nat :=
  let zeroCount := (55 + 64 - msg.length % 64) % 64
  msg ++ [0x80] ++ List.replicate zeroCount 0 ++ le64Bytes ((msg.length * 8) % 2 ^ 64)

/-- Decode a padded block into little-endian 32-bit words, 4 bytes each. -/
def leWords : List Nat → List Nat
  | b0 :: b1 :: b2 :: b3 :: rest =>
      (b0 + (b1 <<< 8) + (b2 <<< 16) + (b3 <<< 24)) :: leWords rest
  | _ => []

/-- One MD5 round: `i` is the round index, `m` the 16 message words,
`(a, b, c, d)` the running state. -/
def md5Round (m : List Nat) (st : Nat × Nat × Nat × Nat) (i : Nat) :
    Nat × Nat × Nat × Nat :=
  let (a, b, c, d) := st
  let (f, g) :=
    if i < 16 then ((b &&& c) ||| (not32 b &&& d), i)
    else if i < 32 then ((d &&& b) ||| (not32 d &&& c), (5 * i + 1) % 16)
    else if i < 48 then (b ^^^ c ^^^ d, (3 * i + 5) % 16)
    else (c ^^^ (b ||| not32 d), (7 * i) % 16)
  let f' := w32 (f + a + md5K.getD i 0 + m.getD g 0)
  (d, w32 (b + rotl32 f' (md5S.getD i 0)), b, c)

/-- Process one 64-byte block, updating the four-word digest state. -/
def md5Block (st : Nat × Nat × Nat × Nat) (block : List Nat) :
    Nat × Nat × Nat × Nat :=
  let m := leWords block
  let (a, b, c, d) := (List.range 64).foldl (md5Round m) st
  let (a0, b0, c0, d0) := st
  (w32 (a0 + a), w32 (b0 + b), w32 (c0 + c), w32 (d0 + d))

/-- Split a (padded) message into its 64-byte blocks, structurally recursive
on a fuel bound so the kernel can evaluate it. -/
def toBlocksAux : Nat → List Nat → List (List Nat)
  | 0, _ => []
  | _, [] => []
  | fuel + 1, l => l.take 64 :: toBlocksAux fuel (l.drop 64)

/-- Split a (padded) message into its 64-byte blocks. -/
def toBlocks (l : List Nat) : List (List Nat) := toBlocksAux l.length l

/-- Little-endian byte serialization of one 32-bit word. -/
def le32Bytes (n : Nat) : List Nat :=
  [n % 256, (n >>> 8) % 256, (n >>> 16) % 256, (n >>> 24) % 256]

/-- MD5 digest of a byte string: 16 bytes (Go `md5.Sum`). -/
def md5 (msg : List Nat) : List Nat :=
  let (a, b, c, d) :=
    (toBlocks (md5Pad msg)).foldl md5Block
      (0x67452301, 0xefcdab89, 0x98badcfe, 0x10325476)
  le32Bytes a ++ le32Bytes b ++ le32Bytes c ++ le32Bytes d

/-- `binary.BigEndian.Uint64(sum[:])`: the first 8 bytes of the digest read
as a big-endian unsigned 64-bit integer. -/
def beUint64 (bytes : List Nat) : Nat :=
  (bytes.take 8).foldl (fun acc b => acc * 256 + b) 0

/-- UTF-8-compatible byte view of an ASCII string (Go `[]byte(s)`; repository
identifiers in this system are ASCII). -/
def strBytes (s : String) : List Nat := s.data.map Char.toNat

/-- ASCII lowercase of one character. -/
def lowerChar (ch : Char) : Char :=
  if 65 ≤ ch.toNat ∧ ch.toNat ≤ 90 then Char.ofNat (ch.toNat + 32) else ch

/-- Modelled from the spec: `protocol.NormalizeRepo` (in
`pkg/gitserver/protocol`, outside the given sources) canonicalizes the
case/format of a repository identifier so that two textual spellings of the
same repository always route identically; modelled as ASCII lowercasing. -/
def normalizeRepo (uri : String) : String := String.mk (uri.data.map lowerChar)

/-! ### String ordering (Go `sort.Strings`, ascending lexicographic) -/

/-- Lexicographic comparison of character lists by code point (Go compares
strings byte-wise; for the ASCII identifiers in scope these agree). -/
def charListLe : List Char → List Char → Bool
  | [], _ => true
  | _ :: _, [] => false
  | a :: as, b :: bs =>
    if a.toNat < b.toNat then true
    else if b.toNat < a.toNat then false
    else charListLe as bs

/-- `a ≤ b` for strings, as Go's `sort.Strings` orders them. -/
def strLe (a b : String) : Bool := charListLe a.data b.data

/-- Insert a string into an already-sorted list. -/
def insertStr (a : String) : List String → List String
  | [] => [a]
  | b :: bs => if strLe a b then a :: b :: bs else b :: insertStr a bs

/-- Ascending sort of a string list (`sort.Strings`). -/
def sortStrings : List String → List String
  | [] => []
  | a :: as => insertStr a (sortStrings as)

/-! ### Context, transport and request model

Go's `context.Context` is modelled by its observable error state; HTTP by a
pure transport function from requests to responses. JSON decoding of the
two body shapes the client reads is modelled by `Option` fields on the
response (`none` = the body does not decode to that shape). -/

/-- `ctx.Err()`: `nil`, `context.Canceled`, or `context.DeadlineExceeded`. -/
inductive CtxErr
  | canceled
  | deadlineExceeded
deriving DecidableEq, Repr

/-- A request context, reduced to its expiry state. -/
structure Ctx where
  err : Option CtxErr := none
deriving DecidableEq, Repr

/-- `protocol.ExecRequest`: body of a POST to `/exec`. -/
structure ExecRequest where
  repo : String
  ensureRevision : String
  args : List String
deriving DecidableEq, Repr

/-- JSON payloads this client POSTs (`httpPost`'s `payload` argument). -/
inductive Payload
  | exec (req : ExecRequest)
  | repo (repo : String)
deriving DecidableEq, Repr

/-- One outbound HTTP POST: target address, endpoint, body. -/
structure Request where
  addr : String
  method : String
  payload : Payload
deriving DecidableEq, Repr

/-- The three `X-Exec-*` trailer keys read by the client; a missing key reads
as `""` (Go `http.Header.Get`). -/
structure Trailer where
  exitStatus : String := ""
  stderr : String := ""
  errorMsg : String := ""
deriving DecidableEq, Repr

/-- `protocol.NotFoundPayload`: body of a 404 from `/exec`. -/
structure NotFoundPayload where
  cloneInProgress : Bool
deriving DecidableEq, Repr

/-- `protocol.RepoInfoResponse` (the fields the resolver layer reads). -/
structure RepoInfoResponse where
  url : String
  cloned : Bool
  cloneInProgress : Bool
  lastFetched : Option String
deriving DecidableEq, Repr, Inhabited

/-- An HTTP response: status, body (as the chunk sequence a streaming reader
would observe), trailers, and the JSON views of the body. -/
structure HttpResponse where
  status : Nat
  bodyChunks : List (List Nat) := []
  trailer : Trailer := {}
  notFound : Option NotFoundPayload := none
  repoInfo : Option RepoInfoResponse := none
deriving DecidableEq, Repr

/-- A transport: `.error` is a connection-level failure before any response. -/
def Transport := Request → Except String HttpResponse

/-- Observable client-side effects: the outbound request log and the
`src_gitserver_client_deadline_exceeded` Prometheus counter. -/
structure ExecState where
  requests : List Request := []
  deadlineExceeded : Nat := 0
deriving DecidableEq, Repr

/-- The error surface of the client operations. -/
inductive GitError
  | ctx (e : CtxErr)                          -- `ctx.Err()` returned at entry
  | http (msg : String)                       -- transport-level failure
  | jsonDecode (what : String)                -- JSON body failed to decode
  | repoNotExist (cloneInProgress : Bool)     -- `vcs.RepoNotExistError`
  | unexpectedStatus (code : Nat)             -- `unexpected status code: %d`
  | atoiFail (input : String)                 -- `strconv.Atoi` failure
  | remote (msg : String)                     -- `errors.New(errorMsg)`
  | urlError (op : String) (code : Nat)       -- `url.Error` from `RepoInfo`
  | panicMsg (msg : String)                   -- a Go runtime/explicit panic
deriving DecidableEq, Repr

/-- A gitserver client: the immutable address table (`Client.Addrs`). -/
structure Client where
  addrs : List String
deriving DecidableEq, Repr

/-- A remote command (`gitserver.Cmd`). -/
structure Cmd where
  args : List String
  repo : String := ""
  ensureRevision : String := ""
deriving DecidableEq, Repr

/-! ### Client operations -/

/-- The hash-based shard index: first 8 digest bytes, big-endian, modulo the
table size (`binary.BigEndian.Uint64(md5.Sum(...)) % uint64(len(Addrs))`). -/
def routeIndex (repoURI : String) (n : Nat) : Nat :=
  beUint64 (md5 (strBytes repoURI)) % n

/-- `Client.Command`: builds a `Cmd`; panics (modelled as `.error`) unless the
command name is exactly `"git"`. Pure — it performs no I/O. -/
def Client.command (c : Client) (name : String) (arg : List String) :
    Except GitError Cmd :=
  if name ≠ "git" then .error (.panicMsg "gitserver: command name must be 'git'")
  else .ok { args := "git" :: arg }

/-- The status dispatch of `sendExec` on a received `/exec` response:
`200` hands back body and trailers, `404` decodes a `NotFoundPayload` into
the typed not-exist error, anything else is a generic status failure. -/
def execDispatch (resp : HttpResponse) :
    Except GitError (List (List Nat) × Trailer) :=
  if resp.status = 200 then .ok (resp.bodyChunks, resp.trailer)
  else if resp.status = 404 then
    match resp.notFound with
    | none => .error (.jsonDecode "NotFoundPayload")
    | some payload => .error (.repoNotExist payload.cloneInProgress)
  else .error (.unexpectedStatus resp.status)

/-- `Cmd.sendExec`: expired-context fast path (incrementing the deadline
counter), hash routing, one POST to `/exec`, and status dispatch.
An empty address table would make Go panic on `% 0`; modelled as `.panicMsg`
with no request issued. -/
def sendExec (c : Client) (cmd : Cmd) (ctx : Ctx) (t : Transport)
    (st : ExecState) :
    Except GitError (List (List Nat) × Trailer) × ExecState :=
  let repoURI := normalizeRepo cmd.repo
  -- Check that ctx is not expired.
  match ctx.err with
  | some e =>
    (.error (.ctx e), { st with deadlineExceeded := st.deadlineExceeded + 1 })
  | none =>
    if c.addrs.isEmpty then (.error (.panicMsg "integer divide by zero"), st)
    else
      let addr := c.addrs.getD (routeIndex repoURI c.addrs.length) ""
      let req : Request :=
        ⟨addr, "exec", .exec ⟨repoURI, cmd.ensureRevision, cmd.args.drop 1⟩⟩
      (match t req with
       | .error msg => .error (.http msg)
       | .ok resp => execDispatch resp,
       { st with requests := st.requests ++ [req] })

/-- Building a command and then executing it: `Client.Command` followed by
`sendExec`. A panic in `Command` aborts before any I/O. -/
def commandExec (c : Client) (name : String) (arg : List String)
    (repo ensureRevision : String) (ctx : Ctx) (t : Transport)
    (st : ExecState) :
    Except GitError (List (List Nat) × Trailer) × ExecState :=
  match c.command name arg with
  | .error e => (.error e, st)
  | .ok cmd =>
    sendExec c { cmd with repo := repo, ensureRevision := ensureRevision }
      ctx t st

/-- Accumulate the decimal value of a digit run; `none` on a non-digit. -/
def digitsValAux : List Char → Nat → Option Nat
  | [], acc => some acc
  | ch :: cs, acc =>
    if ch.isDigit then digitsValAux cs (acc * 10 + (ch.toNat - 48)) else none

/-- Value of a non-empty all-digit character run, else `none`. -/
def digitsVal : List Char → Option Nat
  | [] => none
  | ds => digitsValAux ds 0

/-- `strconv.Atoi`: optional single sign, then one or more digits; anything
else is an error (`none`). 64-bit range overflow is not modelled — the
trailer values in scope are short decimal strings. -/
def atoi (s : String) : Option Int :=
  match s.data with
  | '+' :: ds => (digitsVal ds).map Int.ofNat
  | '-' :: ds => (digitsVal ds).map (fun n => -(n : Int))
  | ds => (digitsVal ds).map Int.ofNat

/-- `Cmd.DividedOutput`: full read of the body, then integer-parse the exit
status trailer, then let a non-empty error trailer supersede it, returning
stdout and stderr alongside. Result mirrors Go's `([]byte, []byte, error)`
with `nil` slices as `[]`. Mid-body read errors are not modelled: a
successfully begun body is fully readable. -/
def dividedOutput (c : Client) (cmd : Cmd) (ctx : Ctx) (t : Transport)
    (st : ExecState) :
    (List Nat × List Nat × Option GitError) × ExecState :=
  match sendExec c cmd ctx t st with
  | (.error e, st') => (([], [], some e), st')
  | (.ok (chunks, trailer), st') =>
    let stdout := chunks.flatten
    match atoi trailer.exitStatus with
    | none => (([], [], some (.atoiFail trailer.exitStatus)), st')
    | some _ =>
      let stderr := strBytes trailer.stderr
      if trailer.errorMsg ≠ "" then
        ((stdout, stderr, some (.remote trailer.errorMsg)), st')
      else ((stdout, stderr, none), st')

/-! ### The streaming reader (`StdoutReader` / `cmdReader`) -/

/-- The read-side view of a `cmdReader`: the sequence of read results the
underlying response body will still produce, plus the trailers. Each event
is a byte chunk together with a flag saying whether the underlying read
returns `io.EOF` alongside those bytes — Go's `io.Reader` contract allows a
read to return the final bytes and `io.EOF` together, or to signal EOF on a
later empty read. An exhausted event list means every further underlying
read returns `(0, io.EOF)`. -/
structure CmdReader where
  reads : List (List Nat × Bool)
  trailer : Trailer
deriving DecidableEq, Repr

/-- The non-`nil` errors a `cmdReader.Read` can return. The two failure
constructors carry the pieces Go formats into the message
(`fmt.Errorf("%s (stderr: %q)", ...)` / `"non-zero exit status: %s ..."`),
including the (possibly truncated) stderr. -/
inductive ReadErr
  | eof
  | execError (msg : String) (stderr : String)
  | nonZeroExit (status : String) (stderr : String)
deriving DecidableEq, Repr

/-- Stderr as embedded in a `cmdReader` failure message: cut to 100
characters plus an ellipsis marker when longer than 100. -/
def truncStderr (s : String) : String :=
  if s.length > 100 then s.take 100 ++ "... (truncated)" else s

/-- The `err == io.EOF` branch of `cmdReader.Read`: consult the trailers —
a non-empty `X-Exec-Error` wins, else a literal comparison of
`X-Exec-Exit-Status` against `"0"` decides between failure and a clean
`(n, io.EOF)` result. A failing trailer makes the code `return 0, err`,
discarding any `bytes` the underlying read returned together with
`io.EOF`. -/
def eofCheck (bytes : List Nat) (t : Trailer) : List Nat × Option ReadErr :=
  if t.errorMsg ≠ "" then
    ([], some (.execError t.errorMsg (truncStderr t.stderr)))
  else if t.exitStatus ≠ "0" then
    ([], some (.nonZeroExit t.exitStatus (truncStderr t.stderr)))
  else (bytes, some .eof)

/-- One `cmdReader.Read`: reads whose error is `nil` pass through; when the
underlying read reports `io.EOF` — with or without final bytes — the
trailer check of `eofCheck` runs. -/
def cmdReaderRead : CmdReader → (List Nat × Option ReadErr) × CmdReader
  | ⟨[], t⟩ => (eofCheck [] t, ⟨[], t⟩)
  | ⟨(chunk, false) :: rest, t⟩ => ((chunk, none), ⟨rest, t⟩)
  | ⟨(chunk, true) :: rest, t⟩ => (eofCheck chunk t, ⟨rest, t⟩)

/-- Trace of reads over the remaining underlying events, recursing
structurally on the event list (the trailer never changes). -/
def readTraceAux (t : Trailer) :
    List (List Nat × Bool) → List (List Nat × Option ReadErr)
  | [] => [(cmdReaderRead ⟨[], t⟩).1]
  | (chunk, isEof) :: rest =>
    (cmdReaderRead ⟨(chunk, isEof) :: rest, t⟩).1 ::
      (if isEof then [] else readTraceAux t rest)

/-- The full sequence of results a caller obtains by reading until the
first non-`nil` error (`io.EOF` included): an event flagged as carrying
`io.EOF` ends the trace. -/
def readTrace (r : CmdReader) : List (List Nat × Option ReadErr) :=
  readTraceAux r.trailer r.reads

/-! ### Fan-out listing (`doListMulti`) -/

/-- A per-worker failure: `context.Canceled` or anything else. -/
inductive ListErr
  | canceled
  | fail (msg : String)
deriving DecidableEq, Repr

/-- What one fan-out worker's `doListOne` call produced. -/
structure WorkerRet where
  list : List String
  err : Option ListErr
deriving DecidableEq, Repr

/-- The mutex-guarded accumulator shared by the fan-out workers, plus
whether `cancel()` has been invoked. -/
structure FanoutState where
  combinedList : List String
  err : Option ListErr
  cancelCalled : Bool
deriving DecidableEq, Repr

/-- One worker's critical section: record the first failure that is not a
cancellation (also cancelling the shared context), then append its list. -/
def fanoutStep (s : FanoutState) (r : WorkerRet) : FanoutState :=
  let s' :=
    match r.err, s.err with
    | some .canceled, _ => s
    | some e, none => { s with err := some e, cancelCalled := true }
    | some _, some _ => s
    | none, _ => s
  { s' with combinedList := s'.combinedList ++ r.list }

/-- `doListMulti`, parameterized by the per-worker outcomes in the order the
workers entered the mutex (the schedule). Single-address fast path returns
`doListOne`'s result directly; otherwise the accumulated lists are merged
and sorted and the recorded error returned alongside. -/
def doListMulti (addrs : List String) (rets : List WorkerRet) :
    List String × Option ListErr :=
  if addrs.length = 1 then
    ((rets.headD ⟨[], none⟩).list, (rets.headD ⟨[], none⟩).err)
  else
    let s := rets.foldl fanoutStep ⟨[], none, false⟩
    (sortStrings s.combinedList, s.err)

/-- The shared fan-out state after all workers finished. -/
def fanoutFinal (rets : List WorkerRet) : FanoutState :=
  rets.foldl fanoutStep ⟨[], none, false⟩

/-- The first per-worker failure that is not a cancellation. -/
def firstNonCanceled : List WorkerRet → Option ListErr
  | [] => none
  | r :: rs =>
    match r.err with
    | some .canceled => firstNonCanceled rs
    | some e => some e
    | none => firstNonCanceled rs

/-- Whether a string list is ascending under `strLe`. -/
def sortedStr : List String → Bool
  | [] => true
  | [_] => true
  | a :: b :: rest => strLe a b && sortedStr (b :: rest)

/-! ### `RepoInfo` and `UploadPack` -/

/-- The status dispatch of `RepoInfo` on a received `/repo` response: any
non-200 status — 404 included — becomes a generic `url.Error`; a 200
decodes a `RepoInfoResponse`. -/
def repoInfoDispatch (resp : HttpResponse) : Except GitError RepoInfoResponse :=
  if resp.status ≠ 200 then .error (.urlError "RepoInfo" resp.status)
  else
    match resp.repoInfo with
    | none => .error (.jsonDecode "RepoInfoResponse")
    | some info => .ok info

/-- `Client.RepoInfo`: POST to `/repo` on the first address, then status
dispatch. -/
def repoInfo (c : Client) (t : Transport) (repo : String) (st : ExecState) :
    Except GitError RepoInfoResponse × ExecState :=
  match c.addrs with
  | [] => (.error (.panicMsg "index out of range"), st)
  | addr0 :: _ =>
    let req : Request := ⟨addr0, "repo", .repo repo⟩
    (match t req with
     | .error msg => .error (.http msg)
     | .ok resp => repoInfoDispatch resp,
     { st with requests := st.requests ++ [req] })

/-- The shard address `Client.UploadPack` proxies to: normalize, MD5, first
8 bytes big-endian, modulo the table size, index. The proxying itself
(transparent byte relay) is not modelled; `none` is Go's panic on an empty
table. -/
def uploadPackAddr (c : Client) (repoURI : String) : Option String :=
  let r := normalizeRepo repoURI
  match c.addrs with
  | [] => none
  | _ :: _ => some (c.addrs.getD (routeIndex r c.addrs.length) "")

end Gitserver

namespace GraphQL

open Gitserver

/-! ### `repositoryMirrorInfoResolver` (graphqlbackend)

The `sync.Once`-memoized `gitserverRepoInfo` cell and its four consuming
resolver methods. The remote `gitserver.DefaultClient.RepoInfo` call is
modelled as a fixed response/error pair `remote` (the RPC is deterministic
within one resolver's lifetime for our purposes); the resolver state counts
how many times it was actually invoked. -/

/-- The remote call's outcome: Go's `(*protocol.RepoInfoResponse, error)`,
where the pointer may be `nil` exactly when an error occurred. -/
structure RemoteOutcome where
  response : Option RepoInfoResponse
  err : Option String
deriving DecidableEq, Repr

/-- `repositoryMirrorInfoResolver`: the memo cell (`sync.Once` +
`repoInfoResponse`/`repoInfoErr`) plus an instrumentation counter of
performed RPCs. -/
structure MirrorResolver where
  cell : Option RemoteOutcome := none
  rpcCount : Nat := 0
deriving DecidableEq, Repr

/-- `gitserverRepoInfo`: run the remote read once, memoize, and afterwards
return the stored response-and-error pair. -/
def gitserverRepoInfo (remote : RemoteOutcome) (r : MirrorResolver) :
    RemoteOutcome × MirrorResolver :=
  match r.cell with
  | some v => (v, r)
  | none => (remote, { cell := some remote, rpcCount := r.rpcCount + 1 })

/-- One resolver method invocation. `remoteURL` carries whether the caller
passes the site-admin check that guards it (`backend.CheckCurrentUserIsSiteAdmin`,
modelled as a boolean on the request context). -/
inductive MirrorCall
  | remoteURL (isSiteAdmin : Bool)
  | cloned
  | cloneInProgress
  | updatedAt
deriving DecidableEq, Repr

/-- What a resolver method returns, unified across the four methods. -/
inductive MirrorOutcome
  | failure (msg : String)
  | strVal (s : String)
  | boolVal (b : Bool)
  | optStrVal (s : Option String)
deriving DecidableEq, Repr

/-- Project the memoized pair the way each method does. A `none` response
with no error would be a nil-pointer dereference in Go; the `remote`
outcomes considered below always pair `none` with an error. -/
def runMirrorCall (remote : RemoteOutcome) (call : MirrorCall)
    (r : MirrorResolver) : MirrorOutcome × MirrorResolver :=
  match call with
  | .remoteURL isSiteAdmin =>
    if !isSiteAdmin then (.failure "must be site admin", r)
    else
      let (v, r') := gitserverRepoInfo remote r
      match v.err with
      | some e => (.failure e, r')
      | none => (.strVal ((v.response.getD default).url), r')
  | .cloned =>
    let (v, r') := gitserverRepoInfo remote r
    match v.err with
    | some e => (.failure e, r')
    | none => (.boolVal ((v.response.getD default).cloned), r')
  | .cloneInProgress =>
    let (v, r') := gitserverRepoInfo remote r
    match v.err with
    | some e => (.failure e, r')
    | none => (.boolVal ((v.response.getD default).cloneInProgress), r')
  | .updatedAt =>
    let (v, r') := gitserverRepoInfo remote r
    match v.err with
    | some e => (.failure e, r')
    | none => (.optStrVal ((v.response.getD default).lastFetched), r')

/-- A sequence of method invocations against one resolver instance. -/
def runMirrorCalls (remote : RemoteOutcome) :
    List MirrorCall → MirrorResolver → List MirrorOutcome × MirrorResolver
  | [], r => ([], r)
  | c :: cs, r =>
    let step := runMirrorCall remote c r
    let rest := runMirrorCalls remote cs step.2
    (step.1 :: rest.1, rest.2)

/-- Whether a method invocation reaches the memoized read (`RemoteURL` is
guarded by the site-admin check and returns early for non-admins). -/
def effectiveCall : MirrorCall → Bool
  | .remoteURL isSiteAdmin => isSiteAdmin
  | _ => true

end GraphQL

section Md5Check

/-- RFC 1321 test vector: MD5 of the empty string. -/
example : Gitserver.md5 [] =
    [0xd4, 0x1d, 0x8c, 0xd9, 0x8f, 0x00, 0xb2, 0x04,
     0xe9, 0x80, 0x09, 0x98, 0xec, 0xf8, 0x42, 0x7e] := by decide

end Md5Check

/-! ## Shared lemmas -/

namespace Gitserver

theorem isEmpty_false_of_ne_nil {α : Type} {l : List α} (h : l ≠ []) :
    l.isEmpty = false := by
  cases l with
  | nil => exact absurd rfl h
  | cons a as => rfl

/-- With a live context and a non-empty table, `sendExec` records exactly one
outbound request, aimed at the MD5-routed address. -/
theorem sendExec_state (c : Client) (cmd : Cmd) (ctx : Ctx) (t : Transport)
    (st : ExecState) (hemp : c.addrs.isEmpty = false) (hctx : ctx.err = none) :
    (sendExec c cmd ctx t st).2
      = { st with requests := st.requests
            ++ [⟨c.addrs.getD (routeIndex (normalizeRepo cmd.repo) c.addrs.length) "",
                 "exec",
                 .exec ⟨normalizeRepo cmd.repo, cmd.ensureRevision,
                        cmd.args.drop 1⟩⟩] } := by
  simp [sendExec, hctx, hemp]

/-- A 200 response surfaces body chunks and trailers. -/
theorem sendExec_ok (c : Client) (cmd : Cmd) (ctx : Ctx) (st : ExecState)
    (resp : HttpResponse) (hemp : c.addrs.isEmpty = false)
    (hctx : ctx.err = none) (h200 : resp.status = 200) :
    (sendExec c cmd ctx (fun _ => .ok resp) st).1
      = .ok (resp.bodyChunks, resp.trailer) := by
  simp [sendExec, hctx, hemp, execDispatch, h200]

end Gitserver

/-! ## Claims -/

namespace Gitserver

/-- C2: for every command name not equal to the exact string `"git"`,
`Client.Command` fails immediately (a panic, modelled as an error), before
any network I/O: composing command construction with execution issues no
HTTP request for such a name. -/
theorem c2_command_gate (c : Client) (name : String) (arg : List String)
    (repo rev : String) (ctx : Ctx) (t : Transport) (st : ExecState)
    (hname : name ≠ "git") :
    c.command name arg = .error (.panicMsg "gitserver: command name must be 'git'")
    ∧ (commandExec c name arg repo rev ctx t st).1
        = .error (.panicMsg "gitserver: command name must be 'git'")
    ∧ (commandExec c name arg repo rev ctx t st).2.requests = st.requests := by
  have hc : c.command name arg
      = .error (.panicMsg "gitserver: command name must be 'git'") := by
    simp [Client.command, hname]
  exact ⟨hc, by simp [commandExec, hc], by simp [commandExec, hc]⟩

/-- Witness for C2 at name `"sh"`. -/
theorem c2_command_gate_witness :
    Client.command ⟨["gitserver:3178"]⟩ "sh" ["-c", "id"]
      = .error (.panicMsg "gitserver: command name must be 'git'")
    ∧ (commandExec ⟨["gitserver:3178"]⟩ "sh" ["-c", "id"] "r" "" {}
        (fun _ => .ok { status := 200 }) {}).1
      = .error (.panicMsg "gitserver: command name must be 'git'")
    ∧ (commandExec ⟨["gitserver:3178"]⟩ "sh" ["-c", "id"] "r" "" {}
        (fun _ => .ok { status := 200 }) {}).2.requests = [] :=
  c2_command_gate ⟨["gitserver:3178"]⟩ "sh" ["-c", "id"] "r" "" {}
    (fun _ => .ok { status := 200 }) {} (by decide)

/-- C8: an expired-context check runs before any attempt: if the caller's
context is already expired when the call starts, `sendExec` fails fast with
that context error, issues no request, and increments the dedicated
deadline-exceeded counter. -/
theorem c8_expired_context (c : Client) (cmd : Cmd) (ctx : Ctx) (e : CtxErr)
    (t : Transport) (st : ExecState) (hctx : ctx.err = some e) :
    (sendExec c cmd ctx t st).1 = .error (.ctx e)
    ∧ (sendExec c cmd ctx t st).2.requests = st.requests
    ∧ (sendExec c cmd ctx t st).2.deadlineExceeded = st.deadlineExceeded + 1 := by
  refine ⟨?_, ?_, ?_⟩ <;> simp [sendExec, hctx]

/-- Witness for C8 on a deadline-expired context. -/
theorem c8_expired_context_witness :
    (sendExec ⟨["gitserver:3178"]⟩ { args := ["git", "log"], repo := "r" }
        ⟨some .deadlineExceeded⟩ (fun _ => .error "unreachable") {}).1
      = .error (.ctx .deadlineExceeded)
    ∧ (sendExec ⟨["gitserver:3178"]⟩ { args := ["git", "log"], repo := "r" }
        ⟨some .deadlineExceeded⟩ (fun _ => .error "unreachable") {}).2.requests
      = []
    ∧ (sendExec ⟨["gitserver:3178"]⟩ { args := ["git", "log"], repo := "r" }
        ⟨some .deadlineExceeded⟩ (fun _ => .error "unreachable") {}).2.deadlineExceeded
      = 1 :=
  c8_expired_context ⟨["gitserver:3178"]⟩ { args := ["git", "log"], repo := "r" }
    ⟨some .deadlineExceeded⟩ .deadlineExceeded (fun _ => .error "unreachable") {} rfl

end Gitserver

namespace Gitserver

/-- C7: when the streaming reader reports captured stderr further up (inside
the failure it constructs at end-of-stream), it truncates it to 100
characters plus an ellipsis marker whenever it exceeds 100 characters,
on both the explicit-error and the non-zero-exit paths. -/
theorem c7_stderr_truncation (t : Trailer) (h : 100 < t.stderr.length) :
    truncStderr t.stderr = t.stderr.take 100 ++ "... (truncated)"
    ∧ (t.errorMsg ≠ "" →
        (cmdReaderRead ⟨[], t⟩).1
          = ([], some (.execError t.errorMsg
              (t.stderr.take 100 ++ "... (truncated)"))))
    ∧ (t.errorMsg = "" → t.exitStatus ≠ "0" →
        (cmdReaderRead ⟨[], t⟩).1
          = ([], some (.nonZeroExit t.exitStatus
              (t.stderr.take 100 ++ "... (truncated)")))) := by
  have ht : truncStderr t.stderr = t.stderr.take 100 ++ "... (truncated)" := by
    simp [truncStderr, h]
  refine ⟨ht, fun hmsg => ?_, fun hmsg hexit => ?_⟩
  · simp [cmdReaderRead, eofCheck, hmsg, ht]
  · simp [cmdReaderRead, eofCheck, hmsg, hexit, ht]

/-- Witness for C7 with a 101-character stderr and an explicit error. -/
theorem c7_stderr_truncation_witness :
    (cmdReaderRead ⟨[], ⟨"0", String.mk (List.replicate 101 'a'), "boom"⟩⟩).1
      = ([], some (.execError "boom"
          ((String.mk (List.replicate 101 'a')).take 100 ++ "... (truncated)"))) :=
  (c7_stderr_truncation ⟨"0", String.mk (List.replicate 101 'a'), "boom"⟩
    (by decide)).2.1 (by decide)

/-- C10: at end-of-stream with an empty `X-Exec-Error` trailer, the
streaming reader decides failure by literal string comparison of
`X-Exec-Exit-Status` against `"0"`: exactly the string `"0"` is a clean
EOF, anything else — a missing/empty value or `"00"` included — errors,
while the buffering executor's integer parse accepts `"00"` as zero. -/
theorem c10_literal_exit_status (t : Trailer) (hme : t.errorMsg = "") :
    ((cmdReaderRead ⟨[], t⟩).1 = ([], some .eof) ↔ t.exitStatus = "0")
    ∧ (t.exitStatus ≠ "0" →
        (cmdReaderRead ⟨[], t⟩).1
          = ([], some (.nonZeroExit t.exitStatus (truncStderr t.stderr))))
    ∧ atoi "00" = some 0 ∧ atoi "" = none := by
  refine ⟨?_, fun hx => ?_, by decide, by decide⟩
  · by_cases hx : t.exitStatus = "0" <;> simp [cmdReaderRead, eofCheck, hme, hx]
  · simp [cmdReaderRead, eofCheck, hme, hx]

/-- Witness for C10 at the alternative zero spelling `"00"`. -/
theorem c10_literal_exit_status_witness :
    (cmdReaderRead ⟨[], ⟨"00", "", ""⟩⟩).1 = ([], some (.nonZeroExit "00" ""))
    ∧ atoi "00" = some 0 := by
  have h := c10_literal_exit_status ⟨"00", "", ""⟩ rfl
  exact ⟨(h.2.1 (by decide)).trans (by decide), h.2.2.1⟩

/-- C4 counterexample: the `io.Reader` contract lets the underlying body
return its final bytes together with `io.EOF`; there, with a failing
trailer (exit status `"1"`), `cmdReader.Read` returns `(0, error)` at once
— the available bytes `[104, 105]` are never delivered to the caller, so
an error appears without every available stdout byte having been
delivered first. -/
theorem c4_eof_codelivery_counterexample :
    readTrace ⟨[([104, 105], true)], ⟨"1", "", ""⟩⟩
      = [([], some (.nonZeroExit "1" ""))]
    ∧ ((readTrace ⟨[([104, 105], true)], ⟨"1", "", ""⟩⟩).map Prod.fst).flatten
      = [] :=
  ⟨by decide, by decide⟩

/-- C4 (amended): when the trailers indicate failure, the streaming reader
reports the error only at a read on which the underlying stream reports
`io.EOF` — reads before that pass their bytes through with no error, so an
error never appears before the last successful byte read; when end-of-input
arrives on its own empty read, every available stdout byte is delivered
before the error; but bytes the underlying reader returns together with
`io.EOF` on the final read are discarded as the failure is reported. -/
theorem c4_streaming_boundary (pre : List (List Nat)) (t : Trailer)
    (lastRead : Option (List Nat))
    (hfail : t.errorMsg ≠ "" ∨ t.exitStatus ≠ "0") :
    readTrace ⟨pre.map (fun ch => (ch, false))
        ++ lastRead.elim [] (fun ch => [(ch, true)]), t⟩
      = pre.map (fun ch => (ch, (none : Option ReadErr)))
        ++ [([], some (if t.errorMsg ≠ "" then
              .execError t.errorMsg (truncStderr t.stderr)
            else .nonZeroExit t.exitStatus (truncStderr t.stderr)))] := by
  induction pre with
  | nil =>
    cases lastRead with
    | none =>
      by_cases hm : t.errorMsg = ""
      · rcases hfail with h | h
        · exact absurd hm h
        · simp [readTrace, readTraceAux, cmdReaderRead, eofCheck, hm, h]
      · simp [readTrace, readTraceAux, cmdReaderRead, eofCheck, hm]
    | some ch =>
      by_cases hm : t.errorMsg = ""
      · rcases hfail with h | h
        · exact absurd hm h
        · simp [readTrace, readTraceAux, cmdReaderRead, eofCheck, hm, h]
      · simp [readTrace, readTraceAux, cmdReaderRead, eofCheck, hm]
  | cons ch' pre' ih =>
    simp [readTrace, readTraceAux, cmdReaderRead] at ih ⊢
    exact ih

/-- Witness for the amended C4: one pass-through chunk delivered with no
error, then the final bytes co-delivered with `io.EOF` are dropped as the
exit-status-`"1"` failure is reported. -/
theorem c4_streaming_boundary_witness :
    readTrace ⟨[([104, 105], false), ([10], true)], ⟨"1", "", ""⟩⟩
      = [([104, 105], none), ([], some (.nonZeroExit "1" ""))] :=
  (c4_streaming_boundary [[104, 105]] ⟨"1", "", ""⟩ (some [10])
    (Or.inr (by decide))).trans (by decide)

end Gitserver

namespace Gitserver

/-- C3: on a 200 exec response, `DividedOutput` fails with a protocol error
when the `X-Exec-Exit-Status` trailer does not parse as an integer; and a
non-empty `X-Exec-Error` trailer is returned as the failure — superseding
any (even zero) parsed exit status — with the stdout and stderr bytes still
returned alongside the error. -/
theorem c3_exec_decode (c : Client) (cmd : Cmd) (ctx : Ctx) (st : ExecState)
    (resp : HttpResponse) (hne : c.addrs ≠ []) (hctx : ctx.err = none)
    (h200 : resp.status = 200) :
    (atoi resp.trailer.exitStatus = none →
      (dividedOutput c cmd ctx (fun _ => .ok resp) st).1
        = ([], [], some (.atoiFail resp.trailer.exitStatus)))
    ∧ (∀ k : Int, atoi resp.trailer.exitStatus = some k →
        resp.trailer.errorMsg ≠ "" →
        (dividedOutput c cmd ctx (fun _ => .ok resp) st).1
          = (resp.bodyChunks.flatten, strBytes resp.trailer.stderr,
             some (.remote resp.trailer.errorMsg))) := by
  have hemp := isEmpty_false_of_ne_nil hne
  constructor
  · intro hA
    simp [dividedOutput, sendExec, hctx, hemp, execDispatch, h200, hA]
  · intro k hA hmsg
    simp [dividedOutput, sendExec, hctx, hemp, execDispatch, h200, hA, hmsg]

/-- Witness for C3: body `"ok\n"`, trailers `exit-status:"0"`,
`error:"boom"` — the failure carries `"boom"` and stdout/stderr are still
returned; and an unparsable exit status `"x"` is a protocol error. -/
theorem c3_exec_decode_witness :
    (dividedOutput ⟨["s0"]⟩ { args := ["git", "log"], repo := "r" } {}
        (fun _ => .ok { status := 200, bodyChunks := [[111, 107, 10]],
                        trailer := ⟨"0", "eep", "boom"⟩ }) {}).1
      = ([111, 107, 10], [101, 101, 112], some (.remote "boom"))
    ∧ (dividedOutput ⟨["s0"]⟩ { args := ["git", "log"], repo := "r" } {}
        (fun _ => .ok { status := 200, bodyChunks := [[111, 107, 10]],
                        trailer := ⟨"x", "", ""⟩ }) {}).1
      = ([], [], some (.atoiFail "x")) := by
  constructor
  · exact ((c3_exec_decode ⟨["s0"]⟩ { args := ["git", "log"], repo := "r" } {} {}
      { status := 200, bodyChunks := [[111, 107, 10]],
        trailer := ⟨"0", "eep", "boom"⟩ } (by decide) rfl rfl).2 0 (by decide)
      (by decide)).trans (by decide)
  · exact (c3_exec_decode ⟨["s0"]⟩ { args := ["git", "log"], repo := "r" } {} {}
      { status := 200, bodyChunks := [[111, 107, 10]],
        trailer := ⟨"x", "", ""⟩ } (by decide) rfl rfl).1 (by decide)

/-- C6 counterexample: a 404 response with body `{"cloneInProgress":true}`
on `/repo` does NOT yield the typed repository-not-exist condition and IS
an error for the `RepoInfo` caller: it yields a generic `url.Error`. -/
theorem c6_notfound_counterexample :
    (repoInfo ⟨["s0"]⟩ (fun _ => .ok { status := 404, notFound := some ⟨true⟩ })
        "r" {}).1
      = .error (.urlError "RepoInfo" 404)
    ∧ (repoInfo ⟨["s0"]⟩ (fun _ => .ok { status := 404, notFound := some ⟨true⟩ })
        "r" {}).1
      ≠ .error (.repoNotExist true) := by
  constructor
  · rfl
  · intro h
    simp [repoInfo, repoInfoDispatch] at h

/-- C6 (amended): a 404 with body `{"cloneInProgress":true}` on `/exec`
yields the typed repository-not-exist condition carrying the flag; on
`/repo`, any non-200 response — this 404 included — yields a generic
`url.Error` (an error); the not-an-error not-found case of `RepoInfo` is a
200 response whose decoded body reports `cloned == false`. -/
theorem c6_notfound_amended (c : Client) (cmd : Cmd) (ctx : Ctx)
    (st : ExecState) (repo : String) (resp resp' : HttpResponse) (b : Bool)
    (info : RepoInfoResponse) (hne : c.addrs ≠ []) (hctx : ctx.err = none)
    (h404 : resp.status = 404) (hnf : resp.notFound = some ⟨b⟩)
    (h200 : resp'.status = 200) (hinfo : resp'.repoInfo = some info) :
    (sendExec c cmd ctx (fun _ => .ok resp) st).1 = .error (.repoNotExist b)
    ∧ (repoInfo c (fun _ => .ok resp) repo st).1
        = .error (.urlError "RepoInfo" 404)
    ∧ (repoInfo c (fun _ => .ok resp') repo st).1 = .ok info := by
  have hemp := isEmpty_false_of_ne_nil hne
  obtain ⟨addrs⟩ := c
  cases addrs with
  | nil => exact absurd rfl hne
  | cons a0 as =>
    refine ⟨?_, ?_, ?_⟩
    · simp [sendExec, hctx, hemp, execDispatch, h404, hnf]
    · simp [repoInfo, repoInfoDispatch, h404]
    · simp [repoInfo, repoInfoDispatch, h200, hinfo]

/-- Witness for the amended C6. -/
theorem c6_notfound_amended_witness :
    (sendExec ⟨["s0"]⟩ { args := ["git", "log"], repo := "r" } {}
        (fun _ => .ok { status := 404, notFound := some ⟨true⟩ }) {}).1
      = .error (.repoNotExist true)
    ∧ (repoInfo ⟨["s0"]⟩ (fun _ => .ok { status := 404, notFound := some ⟨true⟩ })
        "r" {}).1
      = .error (.urlError "RepoInfo" 404)
    ∧ (repoInfo ⟨["s0"]⟩
        (fun _ => .ok { status := 200,
                        repoInfo := some ⟨"https://origin", false, false, none⟩ })
        "r" {}).1
      = .ok ⟨"https://origin", false, false, none⟩ :=
  c6_notfound_amended ⟨["s0"]⟩ { args := ["git", "log"], repo := "r" } {} {} "r"
    { status := 404, notFound := some ⟨true⟩ }
    { status := 200, repoInfo := some ⟨"https://origin", false, false, none⟩ }
    true ⟨"https://origin", false, false, none⟩
    (by decide) rfl rfl rfl rfl rfl

end Gitserver

namespace Gitserver

/-- C1: for every non-empty address table and repository identifier, both
`sendExec` and `UploadPack` route by normalizing the identifier, taking its
MD5 digest, reading the first 8 bytes as a big-endian unsigned 64-bit
integer, reducing modulo the table size, and indexing into the table — so
routing is deterministic: identical identifier and table give the identical
address (here: the two paths agree with the formula and with each other,
independent of transport, context, or prior state). -/
theorem c1_md5_routing (c : Client) (cmd : Cmd) (ctx ctx' : Ctx)
    (t t' : Transport) (st st' : ExecState) (hne : c.addrs ≠ [])
    (hctx : ctx.err = none) (hctx' : ctx'.err = none) :
    ((sendExec c cmd ctx t st).2.requests.map Request.addr
       = st.requests.map Request.addr
         ++ [c.addrs.getD
              (beUint64 (md5 (strBytes (normalizeRepo cmd.repo)))
                % c.addrs.length) ""])
    ∧ uploadPackAddr c cmd.repo
       = some (c.addrs.getD
           (beUint64 (md5 (strBytes (normalizeRepo cmd.repo)))
             % c.addrs.length) "")
    ∧ (sendExec c cmd ctx t st).2.requests.getLast?.map Request.addr
       = (sendExec c cmd ctx' t' st').2.requests.getLast?.map Request.addr := by
  have hemp := isEmpty_false_of_ne_nil hne
  have h1 := sendExec_state c cmd ctx t st hemp hctx
  have h2 := sendExec_state c cmd ctx' t' st' hemp hctx'
  refine ⟨?_, ?_, ?_⟩
  · rw [h1]; simp [routeIndex]
  · obtain ⟨addrs⟩ := c
    cases addrs with
    | nil => exact absurd rfl hne
    | cons a0 as => simp [uploadPackAddr, routeIndex]
  · rw [h1, h2]
    simp [List.getLast?_append_cons]

set_option maxRecDepth 100000 in
/-- Witness for C1: a three-shard table; `"GitHub.com/Foo/Bar"` normalizes
to `"github.com/foo/bar"`, whose MD5-derived index is 2. -/
theorem c1_md5_routing_witness :
    ((sendExec ⟨["s0", "s1", "s2"]⟩
        { args := ["git", "log"], repo := "GitHub.com/Foo/Bar" } {}
        (fun _ => .ok { status := 200 }) {}).2.requests.map Request.addr
      = ["s2"])
    ∧ uploadPackAddr ⟨["s0", "s1", "s2"]⟩ "GitHub.com/Foo/Bar" = some "s2" := by
  have h := c1_md5_routing ⟨["s0", "s1", "s2"]⟩
    { args := ["git", "log"], repo := "GitHub.com/Foo/Bar" } {} {}
    (fun _ => .ok { status := 200 }) (fun _ => .ok { status := 200 }) {} {}
    (by decide) rfl rfl
  exact ⟨h.1.trans (by decide), h.2.1.trans (by decide)⟩

end Gitserver

namespace Gitserver

theorem charListLe_total (a : List Char) :
    ∀ b : List Char, charListLe a b = true ∨ charListLe b a = true := by
  induction a with
  | nil => intro b; left; rfl
  | cons x xs ih =>
    intro b
    cases b with
    | nil => right; rfl
    | cons y ys =>
      by_cases hxy : x.toNat < y.toNat
      · left; simp [charListLe, hxy]
      · by_cases hyx : y.toNat < x.toNat
        · right; simp [charListLe, hyx]
        · rcases ih ys with h | h
          · left; simp [charListLe, hxy, hyx, h]
          · right; simp [charListLe, hxy, hyx, h]

theorem strLe_total (a b : String) : strLe a b = true ∨ strLe b a = true :=
  charListLe_total a.data b.data

theorem sortedStr_insertStr (a : String) (l : List String)
    (h : sortedStr l = true) : sortedStr (insertStr a l) = true := by
  induction l with
  | nil => rfl
  | cons b bs ih =>
    by_cases hab : strLe a b = true
    · simpa [insertStr, hab, sortedStr] using h
    · have hba : strLe b a = true := (strLe_total a b).resolve_left hab
      cases bs with
      | nil => simp [insertStr, hab, sortedStr, hba]
      | cons c cs =>
        have hbc : strLe b c = true := by
          simp [sortedStr] at h; exact h.1
        have hccs : sortedStr (c :: cs) = true := by
          simp [sortedStr] at h ⊢; exact h.2
        by_cases hac : strLe a c = true
        · simp [insertStr, hab, hac, sortedStr, hba, hbc] at hccs ⊢
          exact hccs
        · have hrec := ih hccs
          simp [insertStr, hac] at hrec
          simp [insertStr, hab, hac, sortedStr, hbc]
          simpa [sortedStr] using hrec

theorem sortedStr_sortStrings (l : List String) :
    sortedStr (sortStrings l) = true := by
  induction l with
  | nil => rfl
  | cons a as ih => exact sortedStr_insertStr a (sortStrings as) ih

/-- Folding the workers' critical sections over the accumulator, from any
starting state: lists are appended in completion order, the first
non-cancellation failure is recorded (and triggers `cancel()`), later
failures are ignored. -/
theorem fanout_foldl (rets : List WorkerRet) :
    ∀ s : FanoutState,
    rets.foldl fanoutStep s
      = { combinedList := s.combinedList ++ (rets.map WorkerRet.list).flatten,
          err := match s.err with
                 | some e => some e
                 | none => firstNonCanceled rets,
          cancelCalled := s.cancelCalled
            || (s.err.isNone && (firstNonCanceled rets).isSome) } := by
  induction rets with
  | nil =>
    intro s
    rcases s with ⟨cl, er, cc⟩
    cases er <;> simp [firstNonCanceled]
  | cons r rs ih =>
    intro s
    rcases r with ⟨rl, re⟩
    rcases s with ⟨cl, er, cc⟩
    rw [List.foldl_cons, ih]
    rcases re with _ | (_ | m) <;> rcases er with _ | e0 <;>
      simp [fanoutStep, firstNonCanceled, List.append_assoc]

end Gitserver

namespace Gitserver

/-- C5: for every multi-address fan-out list call (two or more addresses),
`doListMulti` returns the globally sorted merge of all per-shard lists that
were gathered together with the first per-shard failure that is not itself
a cancellation (which also triggered `cancel()` on the shared context);
later failures are ignored and neither partial data nor the recorded error
is dropped. -/
theorem c5_fanout_merge (addrs : List String) (rets : List WorkerRet)
    (h2 : 2 ≤ addrs.length) :
    doListMulti addrs rets
      = (sortStrings ((rets.map WorkerRet.list).flatten), firstNonCanceled rets)
    ∧ (fanoutFinal rets).cancelCalled = (firstNonCanceled rets).isSome
    ∧ sortedStr (doListMulti addrs rets).1 = true := by
  have hlen : ¬ addrs.length = 1 := by omega
  have hf := fanout_foldl rets ⟨[], none, false⟩
  have hmain : doListMulti addrs rets
      = (sortStrings ((rets.map WorkerRet.list).flatten),
         firstNonCanceled rets) := by
    simp [doListMulti, hlen, hf]
  refine ⟨hmain, ?_, ?_⟩
  · simp [fanoutFinal, hf]
  · rw [hmain]; exact sortedStr_sortStrings _

/-- Witness for C5: three shards, two deliver `["b","a"]` and `["c"]`, one
fails with `"boom"` — result is the sorted `["a","b","c"]` plus the error,
and the shared context was cancelled. -/
theorem c5_fanout_merge_witness :
    doListMulti ["s0", "s1", "s2"]
        [⟨["b", "a"], none⟩, ⟨["c"], none⟩, ⟨[], some (.fail "boom")⟩]
      = (["a", "b", "c"], some (.fail "boom"))
    ∧ (fanoutFinal
        [⟨["b", "a"], none⟩, ⟨["c"], none⟩,
         ⟨[], some (.fail "boom")⟩]).cancelCalled = true := by
  have h := c5_fanout_merge ["s0", "s1", "s2"]
    [⟨["b", "a"], none⟩, ⟨["c"], none⟩, ⟨[], some (.fail "boom")⟩] (by decide)
  exact ⟨h.1.trans (by decide), h.2.1.trans (by decide)⟩

end Gitserver

namespace GraphQL

open Gitserver

/-- A method call on a resolver whose memo cell is already filled leaves the
resolver (cell and RPC count) unchanged. -/
theorem runMirrorCall_memo (remote : RemoteOutcome) (call : MirrorCall)
    (k : Nat) :
    (runMirrorCall remote call ⟨some remote, k⟩).2 = ⟨some remote, k⟩ := by
  rcases remote with ⟨resp, rerr⟩
  cases call with
  | remoteURL b =>
    cases b <;> cases rerr <;> simp [runMirrorCall, gitserverRepoInfo]
  | cloned => cases rerr <;> simp [runMirrorCall, gitserverRepoInfo]
  | cloneInProgress => cases rerr <;> simp [runMirrorCall, gitserverRepoInfo]
  | updatedAt => cases rerr <;> simp [runMirrorCall, gitserverRepoInfo]

/-- A method call on a fresh resolver performs the remote read exactly when
it reaches the memoized read, filling the cell and counting one RPC. -/
theorem runMirrorCall_fresh (remote : RemoteOutcome) (call : MirrorCall)
    (k : Nat) :
    (runMirrorCall remote call ⟨none, k⟩).2
      = if effectiveCall call then (⟨some remote, k + 1⟩ : MirrorResolver)
        else ⟨none, k⟩ := by
  rcases remote with ⟨resp, rerr⟩
  cases call with
  | remoteURL b =>
    cases b <;> cases rerr <;>
      simp [runMirrorCall, gitserverRepoInfo, effectiveCall]
  | cloned => cases rerr <;> simp [runMirrorCall, gitserverRepoInfo, effectiveCall]
  | cloneInProgress =>
    cases rerr <;> simp [runMirrorCall, gitserverRepoInfo, effectiveCall]
  | updatedAt =>
    cases rerr <;> simp [runMirrorCall, gitserverRepoInfo, effectiveCall]

/-- Once the memo cell is filled, an arbitrary call sequence leaves the
resolver unchanged. -/
theorem runMirrorCalls_memo (remote : RemoteOutcome) (cs : List MirrorCall)
    (k : Nat) :
    (runMirrorCalls remote cs ⟨some remote, k⟩).2 = ⟨some remote, k⟩ := by
  induction cs with
  | nil => rfl
  | cons c cs ih => simp [runMirrorCalls, runMirrorCall_memo, ih]

/-- From a fresh resolver, any call sequence performs at most one RPC. -/
theorem runMirrorCalls_fresh_count (remote : RemoteOutcome)
    (cs : List MirrorCall) (k : Nat) :
    (runMirrorCalls remote cs ⟨none, k⟩).2.rpcCount ≤ k + 1 := by
  induction cs with
  | nil => exact Nat.le_succ k
  | cons c cs ih =>
    have hs : (runMirrorCalls remote (c :: cs) ⟨none, k⟩).2
        = (runMirrorCalls remote cs (runMirrorCall remote c ⟨none, k⟩).2).2 := rfl
    rw [hs, runMirrorCall_fresh]
    by_cases heff : effectiveCall c = true
    · simp [heff, runMirrorCalls_memo]
    · simp [heff, ih]

end GraphQL

namespace GraphQL

open Gitserver

/-- C9: for every `repositoryMirrorInfoResolver` instance, the gitserver
`RepoInfo` RPC runs at most once over the resolver's lifetime: any call
sequence from a fresh resolver performs at most one RPC; a first call that
reaches the memoized read performs it (filling the cell, RPC count 1);
every later call leaves the resolver unchanged; and both the first and all
memoized reads return the identical response-and-error pair. -/
theorem c9_repoinfo_memoized (remote : RemoteOutcome) (cs : List MirrorCall)
    (c0 : MirrorCall) (heff : effectiveCall c0 = true) :
    (runMirrorCalls remote cs ⟨none, 0⟩).2.rpcCount ≤ 1
    ∧ (runMirrorCall remote c0 ⟨none, 0⟩).2 = ⟨some remote, 1⟩
    ∧ (runMirrorCalls remote cs ⟨some remote, 1⟩).2 = ⟨some remote, 1⟩
    ∧ (gitserverRepoInfo remote ⟨none, 0⟩).1 = remote
    ∧ (gitserverRepoInfo remote ⟨some remote, 1⟩).1 = remote := by
  refine ⟨runMirrorCalls_fresh_count remote cs 0, ?_,
    runMirrorCalls_memo remote cs 1, rfl, rfl⟩
  rw [runMirrorCall_fresh, if_pos heff]

/-- Witness for C9: a concrete remote outcome and the call sequence
`[Cloned, RemoteURL (admin), UpdatedAt]`; one RPC in total. -/
theorem c9_repoinfo_memoized_witness :
    (runMirrorCalls ⟨some ⟨"https://origin", true, false, none⟩, none⟩
        [.cloned, .remoteURL true, .updatedAt] ⟨none, 0⟩).2.rpcCount ≤ 1
    ∧ (runMirrorCall ⟨some ⟨"https://origin", true, false, none⟩, none⟩
        .cloned ⟨none, 0⟩).2
      = ⟨some ⟨some ⟨"https://origin", true, false, none⟩, none⟩, 1⟩
    ∧ (gitserverRepoInfo ⟨some ⟨"https://origin", true, false, none⟩, none⟩
        ⟨none, 0⟩).1
      = ⟨some ⟨"https://origin", true, false, none⟩, none⟩ := by
  have h := c9_repoinfo_memoized
    ⟨some ⟨"https://origin", true, false, none⟩, none⟩
    [.cloned, .remoteURL true, .updatedAt] .cloned rfl
  exact ⟨h.1, h.2.1, h.2.2.2.1⟩

end GraphQL
